import Mathlib

/-!
Verification development for the fio-debian-benchmarking utilities.

This file gives a shallow embedding of the two Python modules

  * `fio_utils/summarize_consolidated.py` (consolidated-log splitter,
    unit normalizer, derivation engine), and
  * `fio_utils/parse_fio_output.py` (metric extractor and describer)

as executable Lean definitions, together with theorems settling the
behavioural claims about them.

Modelling conventions:

  * Python strings are Lean `String`s; character-level work is done on
    `List Char`.
  * Python `float` arithmetic is idealised as `ℚ` (the numeric claims are
    about quantities far below any double-precision subtlety).
  * A Python function that can raise an uncaught exception is embedded as
    `Except Unit _`; `Except.error ()` marks the uncaught exception
    (for this code base: `ValueError` escaping from `float(...)`, and
    `IndexError` escaping from `split(':', 1)[1]`).
  * Python `dict[str, str]` built by repeated assignment is embedded as an
    association list with in-place overwrite (`dinsert`) and first-match
    lookup (`dget`); keys are unique by construction.
  * `str.strip()` / the regex class `\s` are modelled with the ASCII
    whitespace characters; `str.lower()` is modelled as ASCII lowering.
    `float()` special forms that cannot be rationals (`inf`, `nan`) and
    digit-group underscores are not modelled (no input in scope uses them).
-/

unseal Rat.mul Rat.inv Rat.add Rat.sub

/-! ## Character and string primitives -/

/-- ASCII whitespace, the set stripped by Python `str.strip()` and matched
by the regex class `\s`. -/
def isSpaceCh (c : Char) : Bool :=
  c = ' ' || c = '\t' || c = '\n' || c = '\x0d' || c = '\x0b' || c = '\x0c'

/-- ASCII lowering, modelling Python `str.lower()` on the ASCII inputs in
scope. -/
def lowerCh (c : Char) : Char :=
  if 'A' ≤ c && c ≤ 'Z' then Char.ofNat (c.toNat + 32) else c

/-- Lowercase a character list. -/
def lowerL (l : List Char) : List Char := l.map lowerCh

/-- Python `str.strip()`: drop leading and trailing whitespace. -/
def stripL (l : List Char) : List Char :=
  ((l.dropWhile isSpaceCh).reverse.dropWhile isSpaceCh).reverse

/-- Right-hand strip (proof support): drop trailing whitespace, so that
`stripL l = trimEnd (l.dropWhile isSpaceCh)` definitionally. -/
def trimEnd (l : List Char) : List Char := (l.reverse.dropWhile isSpaceCh).reverse

/-- Decimal digit run to a natural number. -/
def digitsToNat (l : List Char) : Nat :=
  l.foldl (fun a c => a * 10 + (c.toNat - 48)) 0

/-- Character allowed in the token captured by `[0-9.]+`. -/
def isNumDot (c : Char) : Bool := c.isDigit || c = '.'

/-- Exponent tail of a Python float literal: empty, or `e`/`E`, optional
sign, one or more digits, end of string. Returns the scaling factor. -/
def pyExpTail (l : List Char) : Option ℚ :=
  match l with
  | [] => some 1
  | c :: r =>
    if c = 'e' || c = 'E' then
      let (neg, r2) : Bool × List Char :=
        match r with
        | '+' :: t => (false, t)
        | '-' :: t => (true, t)
        | t => (false, t)
      let d := r2.takeWhile Char.isDigit
      if d = [] || r2.drop d.length ≠ [] then none
      else some (if neg then ((10 : ℚ) ^ digitsToNat d)⁻¹ else (10 : ℚ) ^ digitsToNat d)
    else none

/-- Python `float(s)` on the forms relevant here: surrounding whitespace,
optional sign, `digits[.digits]` or `.digits`, optional exponent.
`none` models `ValueError`. -/
def pyFloatL (l : List Char) : Option ℚ :=
  let l1 := stripL l
  let (sgn, l2) : ℚ × List Char :=
    match l1 with
    | '+' :: t => (1, t)
    | '-' :: t => (-1, t)
    | t => (1, t)
  let ip := l2.takeWhile Char.isDigit
  let r := l2.drop ip.length
  match r with
  | '.' :: r2 =>
    let fp := r2.takeWhile Char.isDigit
    let r3 := r2.drop fp.length
    if ip = [] && fp = [] then none
    else
      (pyExpTail r3).map fun e =>
        sgn * ((digitsToNat ip : ℚ) + (digitsToNat fp : ℚ) / (10 : ℚ) ^ fp.length) * e
  | _ =>
    if ip = [] then none
    else (pyExpTail r).map fun e => sgn * (digitsToNat ip : ℚ) * e

/-- Python `float` on a `String`. -/
def pyFloat (s : String) : Option ℚ := pyFloatL s.data

/-! ## Consolidated-log splitter (`summarize_consolidated.py`) -/

deriving instance DecidableEq for Except

/-- One record of the splitter: `Record` dataclass of the source. -/
structure Record where
  run : Nat
  file : String
  job_name : Option String
  metrics : List (String × String)
deriving DecidableEq

/-- Lookup in the association-list embedding of a Python dict. -/
def dget : List (String × String) → String → Option String
  | [], _ => none
  | (k', v) :: r, k => if k' = k then some v else dget r k

/-- Python dict assignment `m[k] = v`: overwrite in place, else append.
Keys are unique by construction, so replacing the first hit is exact. -/
def dinsert : List (String × String) → String → String → List (String × String)
  | [], k, v => [(k, v)]
  | (k', v') :: r, k, v =>
    if k' = k then (k, v) :: r else (k', v') :: dinsert r k v

/-- Split a list at the first occurrence of `c`; the pair is (before,
after).  When `c` is absent the whole list is "before". -/
def splitFirst (c : Char) : List Char → List Char × List Char
  | [] => ([], [])
  | x :: r =>
    if x = c then ([], r)
    else
      let p := splitFirst c r
      (x :: p.1, p.2)

/-- The source's `parse_key_val`: `None` without an `=`; otherwise split at
the first `=`, strip both sides, and strip a trailing `#` comment from the
value. -/
def parse_key_val (line : String) : Option (String × String) :=
  if line.data.contains '=' then
    let p := splitFirst '=' line.data
    let key := stripL p.1
    let val := stripL p.2
    let val :=
      if val.contains '#' then stripL (splitFirst '#' val).1
      else val
    some (String.mk key, String.mk val)
  else none

/-- Search for `RUN #` followed by at least one digit, anywhere in the
line, returning the (maximal) digit group: the `re.search(r'RUN #([0-9]+)')`
of the source. -/
def runNumSearch : List Char → Option Nat
  | [] => none
  | c :: r =>
    let l := c :: r
    if ("RUN #".data).isPrefixOf l then
      let d := (l.drop 5).takeWhile Char.isDigit
      if d ≠ [] then some (digitsToNat d) else runNumSearch r
    else runNumSearch r

/-- Python `line.startswith(p)`, on the character list. -/
def lstartsWith (l : List Char) (p : String) : Bool := p.data.isPrefixOf l

/-- Python `line.endswith(p)`, on the character list. -/
def lendsWith (l : List Char) (p : String) : Bool := p.data.isSuffixOf l

/-- Mutable state of `parse_consolidated`'s loop. -/
structure SplitState where
  run_num : Option Nat
  current_file : Option String
  current_metrics : List (String × String)
  job_name : Option String
  records : List Record

/-- The nested `flush()` of `parse_consolidated`: emit a record only when
run, file and at least one metric are all set; always reset metrics, job
name and file (the run number survives). -/
def flushState (st : SplitState) : SplitState :=
  let recs :=
    match st.run_num, st.current_file with
    | some r, some f =>
      if st.current_metrics ≠ [] then
        st.records ++ [{ run := r, file := f, job_name := st.job_name,
                         metrics := st.current_metrics }]
      else st.records
    | _, _ => st.records
  { st with records := recs, current_metrics := [], job_name := none,
            current_file := none }

/-- One line of `parse_consolidated`'s loop body. -/
def splitStep (st : SplitState) (line : String) : SplitState :=
  if lstartsWith line.data "~~~~~~~ RUN #" then
    let st := flushState st
    match runNumSearch line.data with
    | some n => { st with run_num := some n }
    | none => st
  else if lstartsWith line.data "-- " && lendsWith line.data " --" then
    let st := flushState st
    let inner := (line.data.drop 3).take (line.data.length - 6)
    { st with current_file := some (String.mk (stripL inner)) }
  else
    match parse_key_val line with
    | some (k, v) =>
      { st with current_metrics := dinsert st.current_metrics k v,
                job_name := if k = "job_name" then some v else st.job_name }
    | none => st

/-- The source's `parse_consolidated`, over the file's lines (newlines
already stripped, as by `raw.strip('\n')`). -/
def parse_consolidated (lines : List String) : List Record :=
  (flushState (lines.foldl splitStep
    { run_num := none, current_file := none, current_metrics := [],
      job_name := none, records := [] })).records

/-- The source's `parse_numeric`: `float` with `ValueError` caught. -/
def parse_numeric (val : String) : Option ℚ := pyFloat val

/-! ## Unit normalizer (`size_pat`, `bw_to_gbps`, `iops_pat`, `iops_to_k`) -/

/-- Character matching the class `[KMGTP]` under `re.I`. -/
def isPfxCh (c : Char) : Bool :=
  lowerCh c = 'k' || lowerCh c = 'm' || lowerCh c = 'g' ||
  lowerCh c = 't' || lowerCh c = 'p'

/-- Character matching `i` under `re.I`. -/
def isICh (c : Char) : Bool := lowerCh c = 'i'

/-- Character matching `B` under `re.I`. -/
def isBCh (c : Char) : Bool := lowerCh c = 'b'

/-- Character matching `s` under `re.I`. -/
def isSCh (c : Char) : Bool := lowerCh c = 's'

/-- Match the unit group `[KMGTP]?i?B` of `size_pat` at the head of the
list, returning the consumed characters and the rest.  The alternatives are
tried in the greedy backtracking order of the regex engine; the character
classes are disjoint, so at most one alternative fits. -/
def unitMatch : List Char → Option (List Char × List Char)
  | [] => none
  | c1 :: r1 =>
    if isPfxCh c1 then
      match r1 with
      | [] => none
      | c2 :: r2 =>
        if isICh c2 then
          match r2 with
          | [] => none
          | c3 :: r3 => if isBCh c3 then some ([c1, c2, c3], r3) else none
        else if isBCh c2 then some ([c1, c2], r2)
        else none
    else if isICh c1 then
      match r1 with
      | [] => none
      | c2 :: r2 => if isBCh c2 then some ([c1, c2], r2) else none
    else if isBCh c1 then some ([c1], r1)
    else none

/-- Literal `/s` of `size_pat` (the `s` case-insensitive, as the whole
pattern carries `re.I`). -/
def slashS : List Char → Bool
  | '/' :: c :: _ => isSCh c
  | _ => false

/-- Attempt of `size_pat` = `([0-9.]+)\s*([KMGTP]?i?B)/s` at one position:
number token, optional whitespace, unit, `/s`. -/
def sizeMatchAt (l : List Char) : Option (List Char × List Char) :=
  let num := l.takeWhile isNumDot
  if num = [] then none
  else
    match unitMatch ((l.drop num.length).dropWhile isSpaceCh) with
    | some (u, r) => if slashS r then some (num, u) else none
    | none => none

/-- Leftmost search of `size_pat` (`re.search` semantics): try every start
position from the left. -/
def sizeSearch : List Char → Option (List Char × List Char)
  | [] => none
  | c :: r =>
    match sizeMatchAt (c :: r) with
    | some x => some x
    | none => sizeSearch r

/-- Python `unit.startswith(p)` on a character list. -/
def lstarts (l : List Char) (p : String) : Bool := p.data.isPrefixOf l

/-- The factor chain of `bw_to_gbps`, applied to the lowercased unit. -/
def bwFactor (u : List Char) : ℚ :=
  if lstarts u "kib" then 1024
  else if lstarts u "kb" then 1000
  else if lstarts u "mib" then 1024 ^ 2
  else if lstarts u "mb" then 1000000
  else if lstarts u "gib" then 1024 ^ 3
  else if lstarts u "gb" then 1000000000
  else if lstarts u "tib" then 1024 ^ 4
  else if lstarts u "tb" then 1000000000000
  else 1

/-- The source's `bw_to_gbps`: search `size_pat`, `float` the number group
(an uncaught `ValueError` when that group is not a float literal, e.g. two
decimal points), apply the unit factor, divide by `GB_DEC = 1e9`. -/
def bw_to_gbps (val : String) : Except Unit (Option ℚ) :=
  match sizeSearch val.data with
  | none => Except.ok none
  | some (num, u) =>
    match pyFloatL num with
    | none => Except.error ()
    | some n => Except.ok (some (n * bwFactor (lowerL u) / 1000000000))

/-- The source's `iops_to_k`: `iops_pat = ([0-9.]+)\s*([kKmM]?)` matched at
the start of the stripped value; `float` of the number group (uncaught
`ValueError` on a malformed group), suffix scaling, division by 1000. -/
def iops_to_k (val : String) : Except Unit (Option ℚ) :=
  let l := stripL val.data
  let num := l.takeWhile isNumDot
  if num = [] then Except.ok none
  else
    let r := (l.drop num.length).dropWhile isSpaceCh
    let sfx : Option Char :=
      match r with
      | c :: _ => if c = 'k' || c = 'K' || c = 'm' || c = 'M' then some c else none
      | [] => none
    match pyFloatL num with
    | none => Except.error ()
    | some n =>
      let n :=
        match sfx with
        | some c => if lowerCh c = 'k' then n * 1000
                    else if lowerCh c = 'm' then n * 1000000 else n
        | none => n
      Except.ok (some (n / 1000))

/-- The source's `derive_latency_ms`. -/
def derive_latency_ms (iops_k iodepth : Option ℚ) : Option ℚ :=
  match iops_k, iodepth with
  | some k, some d =>
    let iops := k * 1000
    if iops ≤ 0 then none else some (d / iops * 1000)
  | _, _ => none

/-- The source's `first_available`: the value of the first key present in
the metrics mapping (presence, not parseability). -/
def first_available (m : List (String × String)) : List String → Option String
  | [] => none
  | k :: ks =>
    match dget m k with
    | some v => some v
    | none => first_available m ks

/-! ## Derivation engine (`summarize_record`) -/

/-- The `bw_avg` fallback block of `summarize_record` (its lines 169-176):
when `bw_avg` is present, read it as a float (KiB/s, the ValueError caught
to None), times 1024, over 1e9; absent otherwise. -/
def bwAvgFallback (m : List (String × String)) : Option ℚ :=
  match dget m "bw_avg" with
  | some av => (pyFloat av).map fun kib => kib * 1024 / 1000000000
  | none => none

/-- Bandwidth resolution of `summarize_record` (its lines 165-176): parse
the first present of the four preferred fields when truthy (a present empty
string is falsy in Python, so the parse step is skipped and the value stays
None — it still blocks the later fields), then fall back to `bw_avg` read
as KiB/s whenever no value resulted. -/
def resolve_bw (m : List (String × String)) :
    Except Unit (Option String × Option ℚ) :=
  let bw_raw := first_available m ["run_read_bw", "run_write_bw", "read_bw", "write_bw"]
  let step1 : Except Unit (Option ℚ) :=
    match bw_raw with
    | some v => if v = "" then Except.ok none else bw_to_gbps v
    | none => Except.ok none
  match step1 with
  | Except.error e => Except.error e
  | Except.ok (some x) => Except.ok (bw_raw, some x)
  | Except.ok none => Except.ok (bw_raw, bwAvgFallback m)

/-- IOPS resolution of `summarize_record` (its lines 178-185): parse the
first present truthy of `read_iops`, `write_iops`, then fall back to
`iops_avg` as a raw float over 1000. -/
def resolve_iops (m : List (String × String)) :
    Except Unit (Option String × Option ℚ) :=
  let iops_raw := first_available m ["read_iops", "write_iops"]
  let step1 : Except Unit (Option ℚ) :=
    match iops_raw with
    | some v => if v = "" then Except.ok none else iops_to_k v
    | none => Except.ok none
  match step1 with
  | Except.error e => Except.error e
  | Except.ok (some x) => Except.ok (iops_raw, some x)
  | Except.ok none =>
    match dget m "iops_avg" with
    | some av => Except.ok (iops_raw, (pyFloat av).map fun x => x / 1000)
    | none => Except.ok (iops_raw, none)

/-- Derived summary of one record, before the final string formatting of
the source (the claims are about the numeric values). -/
structure Summary where
  run : Nat
  file : String
  job_name : Option String
  iodepth : Option ℚ
  throughput_GBps : Option ℚ
  iops_k : Option ℚ
  derived_latency_ms : Option ℚ
  clat_avg_ms : Option ℚ
  bw_source : Option String
  iops_source : Option String
deriving DecidableEq

/-- The source's `summarize_record` up to (and excluding) the `f"..."`
formatting: iodepth parse, bandwidth and IOPS resolution (either can raise
through the unit parsers), Little's-law latency, `clat_avg` in ms. -/
def summarize_record (rec : Record) : Except Unit Summary :=
  let m := rec.metrics
  let iodepth_val := first_available m ["iodepth"]
  let iodepth : Option ℚ :=
    match iodepth_val with
    | some v => if v = "" then none else parse_numeric v
    | none => none
  match resolve_bw m with
  | Except.error e => Except.error e
  | Except.ok (bw_raw, bw_gbps) =>
    match resolve_iops m with
    | Except.error e => Except.error e
    | Except.ok (iops_raw, iops_k) =>
      let derived := derive_latency_ms iops_k iodepth
      let clat_avg := dget m "clat_avg"
      let clat_avg_ms : Option ℚ :=
        match clat_avg with
        | some v => if v = "" then none else (pyFloat v).map fun x => x / 1000
        | none => none
      Except.ok { run := rec.run, file := rec.file, job_name := rec.job_name,
                  iodepth := iodepth, throughput_GBps := bw_gbps,
                  iops_k := iops_k, derived_latency_ms := derived,
                  clat_avg_ms := clat_avg_ms, bw_source := bw_raw,
                  iops_source := iops_raw }

/-! ## Specification-side bandwidth scanner (for the C2 refinement)

The following definitions follow the wording of the (amended)
specification of bandwidth parsing, independently of the regex-engine
embedding above: scan for the first `<number><optional-space><unit>/s`
token, where the unit is drawn from an explicit table of spellings with
their multipliers.  They are compared with `bw_to_gbps` by the refinement
theorem below. -/

/-- Unit spellings accepted by the scanner together with their byte
multipliers: the eight binary/decimal units of the specification, and the
remaining spellings matched by the class `[KMGTP]?i?B` (`pib`, `pb`, `ib`,
bare `b`), which the code converts with multiplier 1. -/
def unitTable : List (List Char × ℚ) :=
  [(['k', 'i', 'b'], 1024), (['m', 'i', 'b'], 1024 ^ 2), (['g', 'i', 'b'], 1024 ^ 3),
   (['t', 'i', 'b'], 1024 ^ 4), (['p', 'i', 'b'], 1),
   (['k', 'b'], 1000), (['m', 'b'], 1000000), (['g', 'b'], 1000000000),
   (['t', 'b'], 1000000000000), (['p', 'b'], 1),
   (['i', 'b'], 1), (['b'], 1)]

/-- Case-insensitive literal match: consume the given (lowercase) spelling
at the head of the input, returning the rest. -/
def lmatchCaseless : List Char → List Char → Option (List Char)
  | [], l => some l
  | _ :: _, [] => none
  | p :: ps, c :: cs => if lowerCh c = p then lmatchCaseless ps cs else none

/-- Specification-side unit match: the first table spelling that matches
(case-insensitively) at the head of the list and is followed by `/s`,
yielding its multiplier. -/
def specUnitAt (l : List Char) : Option ℚ :=
  unitTable.findSome? fun p =>
    match lmatchCaseless p.1 l with
    | some r => if slashS r then some p.2 else none
    | none => none

/-- Specification-side token match at one position: number token, optional
whitespace, unit from the table, `/s`. -/
def specMatchAt (l : List Char) : Option (List Char × ℚ) :=
  let num := l.takeWhile isNumDot
  if num = [] then none
  else
    match specUnitAt ((l.drop num.length).dropWhile isSpaceCh) with
    | some f => some (num, f)
    | none => none

/-- Specification-side scan for the first token. -/
def specSearch : List Char → Option (List Char × ℚ)
  | [] => none
  | c :: r =>
    match specMatchAt (c :: r) with
    | some x => some x
    | none => specSearch r

/-- Specification-side bandwidth normalization: number times table
multiplier, divided by 1e9; no value when no token occurs; an error when
the number token is not a float literal. -/
def bw_to_gbps_spec (val : String) : Except Unit (Option ℚ) :=
  match specSearch val.data with
  | none => Except.ok none
  | some (num, f) =>
    match pyFloatL num with
    | none => Except.error ()
    | some n => Except.ok (some (n * f / 1000000000))

/-- Unit-and-`/s` handling of the code path, packaged for comparison with
`specUnitAt`. -/
def codeUnitFactor (l : List Char) : Option ℚ :=
  match unitMatch l with
  | some (u, r) => if slashS r then some (bwFactor (lowerL u)) else none
  | none => none

/-- Token match of the code path with the factor already applied, packaged
for comparison with `specMatchAt`. -/
def codeMatchFactor (l : List Char) : Option (List Char × ℚ) :=
  (sizeMatchAt l).map fun p => (p.1, bwFactor (lowerL p.2))

/-- First-some choice on options (proof-support repackaging of the match
inside `List.findSome?`). -/
def optOr (a b : Option ℚ) : Option ℚ :=
  match a with
  | some x => some x
  | none => b

/-- Continuation applied to a unit match: require `/s` and yield the
multiplier (proof-support repackaging of the match inside `specUnitAt`). -/
def postSlash (q : ℚ) : Option (List Char) → Option ℚ
  | some r => if slashS r then some q else none
  | none => none

/-- Continuation applied to the code-side unit match: require `/s` and
compute the factor of the lowercased unit (proof-support repackaging of
the match inside `codeUnitFactor`). -/
def postSlashU : Option (List Char × List Char) → Option ℚ
  | some (u, r) => if slashS r then some (bwFactor (lowerL u)) else none
  | none => none

/-! ## Metric extractor (`parse_fio_output.py`): key normalization,
description lookup, emission -/

/-- Regex class `[\s:]` collapsed by `normalize_key`. -/
def isWsColon (c : Char) : Bool := isSpaceCh c || c = ':'

/-- Worker of the substitution `re.sub(r'[\s:]+', '_', k)`: the flag says
whether the previous character was part of a whitespace/colon run (whose
underscore has already been emitted). -/
def wsCollapseGo (inRun : Bool) : List Char → List Char
  | [] => []
  | c :: r =>
    if isWsColon c then
      if inRun then wsCollapseGo true r else '_' :: wsCollapseGo true r
    else c :: wsCollapseGo false r

/-- The substitution `re.sub(r'[\s:]+', '_', k)`: every maximal run of
whitespace/colon characters becomes a single underscore. -/
def wsColonCollapse (l : List Char) : List Char := wsCollapseGo false l

/-- Character kept by the filter `re.sub(r'[^A-Za-z0-9_\.\-]', '', k)`. -/
def isKeySafe (c : Char) : Bool :=
  ('A' ≤ c && c ≤ 'Z') || ('a' ≤ c && c ≤ 'z') || ('0' ≤ c && c ≤ '9') ||
  c = '_' || c = '.' || c = '-'

/-- The replacement `k.replace('%', 'pct')`. -/
def pctExpand : List Char → List Char
  | [] => []
  | c :: r => if c = '%' then 'p' :: 'c' :: 't' :: pctExpand r else c :: pctExpand r

/-- The source's `normalize_key`: strip, drop parentheses, `%`→`pct`,
`/`→`_`, collapse whitespace/colon runs to `_`, drop unsafe characters,
lowercase. -/
def normalize_key (k : String) : String :=
  let l0 := stripL k.data
  let l1 := l0.filter fun c => c ≠ '('
  let l2 := l1.filter fun c => c ≠ ')'
  let l3 := pctExpand l2
  let l4 := l3.map fun c => if c = '/' then '_' else c
  let l5 := wsColonCollapse l4
  let l6 := l5.filter isKeySafe
  String.mk (lowerL l6)

/-- Proof-support predicate: a character that can appear in the output of
`normalize_key` (a safe character that is not an uppercase letter). -/
def goodOut (c : Char) : Bool := isKeySafe c && !('A' ≤ c && c ≤ 'Z')

/-- Proof-support predicate: every character of the list is a possible
`normalize_key` output character. -/
def allGood (l : List Char) : Prop := ∀ c ∈ l, goodOut c = true

/-- The exact-key table `desc_map` of the source's `describe`. -/
def desc_map : List (String × String) :=
  [("job_name", "fio job name"),
   ("rw", "workload type (read/write/randread/randwrite/rw)"),
   ("ioengine", "fio ioengine used"),
   ("iodepth", "queue depth per job"),
   ("bs_r", "read block size range"),
   ("bs_w", "write block size range"),
   ("bs_t", "total block size range"),
   ("groupid", "fio group id"),
   ("jobs", "number of jobs (threads/processes)"),
   ("err", "fio job error code"),
   ("pid", "fio job pid"),
   ("timestamp", "fio-reported wall-clock timestamp"),
   ("fio_version", "fio version"),
   ("layout_files", "number of files laid out"),
   ("layout_size", "file size used for layout"),
   ("read_iops", "read IOPS (fio)"),
   ("read_bw", "read bandwidth (fio)"),
   ("read_io", "total read bytes transferred"),
   ("read_run", "read run duration (msec range)"),
   ("write_iops", "write IOPS (fio)"),
   ("write_bw", "write bandwidth (fio)"),
   ("write_io", "total write bytes transferred"),
   ("write_run", "write run duration (msec range)"),
   ("slat_min", "submission latency min (ns)"),
   ("slat_max", "submission latency max (ns)"),
   ("slat_avg", "submission latency avg (ns)"),
   ("slat_stdev", "submission latency stdev (ns)"),
   ("clat_min", "completion latency min (usec)"),
   ("clat_max", "completion latency max (usec)"),
   ("clat_avg", "completion latency avg (usec)"),
   ("clat_stdev", "completion latency stdev (usec)"),
   ("lat_usec_min", "total latency min (usec)"),
   ("lat_usec_max", "total latency max (usec)"),
   ("lat_usec_avg", "total latency avg (usec)"),
   ("lat_usec_stdev", "total latency stdev (usec)"),
   ("bw_min", "bandwidth sample min"),
   ("bw_max", "bandwidth sample max"),
   ("bw_per", "bandwidth sample coverage percent"),
   ("bw_avg", "bandwidth sample avg"),
   ("bw_stdev", "bandwidth sample stdev"),
   ("bw_samples", "bandwidth samples count"),
   ("iops_min", "iops sample min"),
   ("iops_max", "iops sample max"),
   ("iops_avg", "iops sample avg"),
   ("iops_stdev", "iops sample stdev"),
   ("iops_samples", "iops samples count"),
   ("cpu_usr", "cpu user percent"),
   ("cpu_sys", "cpu system percent"),
   ("cpu_ctx", "context switches"),
   ("cpu_majf", "major faults"),
   ("cpu_minf", "minor faults"),
   ("iodepth_dist_1", "percent time at queue depth 1"),
   ("iodepth_dist_2", "percent time at queue depth 2"),
   ("iodepth_dist_4", "percent time at queue depth 4"),
   ("iodepth_dist_8", "percent time at queue depth 8"),
   ("iodepth_dist_16", "percent time at queue depth 16"),
   ("iodepth_dist_32", "percent time at queue depth 32"),
   ("iodepth_dist_>=64", "percent time at queue depth >=64"),
   ("submit_0", "submit queue depth bucket 0 percent"),
   ("submit_4", "submit queue depth bucket 4 percent"),
   ("submit_8", "submit queue depth bucket 8 percent"),
   ("submit_16", "submit queue depth bucket 16 percent"),
   ("submit_32", "submit queue depth bucket 32 percent"),
   ("submit_64", "submit queue depth bucket 64 percent"),
   ("submit_>=64", "submit queue depth bucket >=64 percent"),
   ("complete_0", "complete queue depth bucket 0 percent"),
   ("complete_4", "complete queue depth bucket 4 percent"),
   ("complete_8", "complete queue depth bucket 8 percent"),
   ("complete_16", "complete queue depth bucket 16 percent"),
   ("complete_32", "complete queue depth bucket 32 percent"),
   ("complete_64", "complete queue depth bucket 64 percent"),
   ("complete_>=64", "complete queue depth bucket >=64 percent"),
   ("issued_total", "issued rwts totals (r,w,trim,sync)"),
   ("issued_short", "short ios (r,w,trim,sync)"),
   ("issued_dropped", "dropped ios (r,w,trim,sync)"),
   ("latency_cfg_target", "latency target config"),
   ("latency_cfg_window", "latency window config"),
   ("latency_cfg_percentile", "latency percentile target"),
   ("latency_cfg_depth", "latency depth config"),
   ("run_read_bw", "run summary read bandwidth"),
   ("run_read_io", "run summary read bytes"),
   ("run_read_run", "run summary read duration"),
   ("run_write_bw", "run summary write bandwidth"),
   ("run_write_io", "run summary write bytes"),
   ("run_write_run", "run summary write duration")]

/-- The source's `describe`: patterned prefixes first, then the exact
table. -/
def describe (key : String) : Option String :=
  if lstartsWith key.data "clat_pct_" then some "completion latency percentile (usec)"
  else if lstartsWith key.data "lat_usecpct_" then some "percent of IOs in latency bucket (usec)"
  else if lstartsWith key.data "lat_msecpct_" then some "percent of IOs in latency bucket (msec)"
  else if lstartsWith key.data "disk_" then some "per-disk fio disk stats"
  else if lstartsWith key.data "run_read_" then some "run summary (read)"
  else if lstartsWith key.data "run_write_" then some "run summary (write)"
  else dget desc_map key

/-- The source's `emit`: one normalized-metrics text line, with a
tab-hash-description suffix when the key has a description. -/
def emit (k v : String) : String :=
  match describe k with
  | some d => k ++ " = " ++ v ++ "\t# " ++ d
  | none => k ++ " = " ++ v

/-! ## Metric extractor: regular-expression matchers

Each compiled pattern of the source is embedded as an explicit matcher.
`re.search` is a left-to-right scan over start positions; a greedy `.*`
before a literal is a right-to-left scan (longest match first, with the
whole continuation as the backtracking test); greedy `X+` groups take the
maximal run, shortened only when the continuation requires it. -/

/-- Substring test, Python's `pat in line`. -/
def containsSub : List Char → List Char → Bool
  | [], pat => pat.isEmpty
  | c :: r, pat => if pat.isPrefixOf (c :: r) then true else containsSub r pat

/-- Character of the job-name class `[A-Za-z0-9_.-]`. -/
def isJobCh (c : Char) : Bool :=
  ('A' ≤ c && c ≤ 'Z') || ('a' ≤ c && c ≤ 'z') || ('0' ≤ c && c ≤ '9') ||
  c = '_' || c = '.' || c = '-'

/-- Character of the device-name class `[A-Za-z0-9_-]` of `re_disk_dev`. -/
def isDevCh (c : Char) : Bool :=
  ('A' ≤ c && c ≤ 'Z') || ('a' ≤ c && c ≤ 'z') || ('0' ≤ c && c ≤ '9') ||
  c = '_' || c = '-'

/-- Character of the value class `[^,\s]`. -/
def isValCh (c : Char) : Bool := !(c = ',' || isSpaceCh c)

/-- Character of the key class `[A-Za-z0-9._%/\(\)-]` of `re_kv`. -/
def isKvKeyCh (c : Char) : Bool :=
  ('A' ≤ c && c ≤ 'Z') || ('a' ≤ c && c ≤ 'z') || ('0' ≤ c && c ≤ '9') ||
  c = '.' || c = '_' || c = '%' || c = '/' || c = '(' || c = ')' || c = '-'

/-- One attempt of `re_kv` = `([A-Za-z0-9._%/\(\)-]+)=([^,]+)` at a
position: maximal key run, `=`, non-empty value up to the next comma.
Returns the groups and the rest after the match. -/
def kvMatchAt (l : List Char) : Option ((List Char × List Char) × List Char) :=
  let k := l.takeWhile isKvKeyCh
  if k = [] then none
  else
    match l.drop k.length with
    | '=' :: r =>
      let v := r.takeWhile fun c => c ≠ ','
      if v = [] then none else some ((k, v), r.drop v.length)
    | _ => none

/-- Fuelled scan of `re_kv.finditer`: non-overlapping matches left to
right, advancing one character past a failed position.  Each match
consumes at least three characters, so `l.length + 1` fuel is exact. -/
def kvGo (fuel : Nat) (l : List Char) : List (List Char × List Char) :=
  match fuel with
  | 0 => []
  | fuel + 1 =>
    match l with
    | [] => []
    | c :: r =>
      match kvMatchAt (c :: r) with
      | some (p, rest) => p :: kvGo fuel rest
      | none => kvGo fuel r

/-- All `re_kv` matches of a line. -/
def kvFinditer (l : List Char) : List (List Char × List Char) :=
  kvGo (l.length + 1) l

/-- The source's `parse_kv_list`, at the key/value level: normalized,
prefixed key and stripped value for every `re_kv` match. -/
def parse_kv_list (s : String) (pfx : String) : List (String × String) :=
  (kvFinditer s.data).map fun p =>
    (pfx ++ normalize_key (String.mk p.1), String.mk (stripL p.2))

/-- Value part `\s*(?P<val>[^\]]+)\]` of `re_percentile`: the greedy `\s*`
leaves at least one character in the group. Returns the group and the rest
after the bracket. -/
def pctValTail (rest : List Char) : Option (List Char × List Char) :=
  let seg := rest.takeWhile fun c => c ≠ ']'
  match rest.drop seg.length with
  | ']' :: r2 =>
    if seg = [] then none
    else some (seg.drop (min (seg.takeWhile isSpaceCh).length (seg.length - 1)), r2)
  | _ => none

/-- Tail `th=[...]` of `re_percentile` after the numeric part, carrying the
percentile group (which includes the letters `th`). -/
def pctThTail (t : List Char) (pct : List Char) :
    Option ((List Char × List Char) × List Char) :=
  match t with
  | 't' :: 'h' :: '=' :: '[' :: rest =>
    (pctValTail rest).map fun p => ((pct ++ ['t', 'h'], p.1), p.2)
  | _ => none

/-- One attempt of `re_percentile` = `([0-9]+(?:\.[0-9]+)?th)=\[\s*([^\]]+)\]`
at a position: digits, optionally a dot and more digits (tried greedily
first, dropped if `th` does not follow), then the bracketed value. -/
def pctMatchAt (l : List Char) : Option ((List Char × List Char) × List Char) :=
  let d1 := l.takeWhile Char.isDigit
  if d1 = [] then none
  else
    let r := l.drop d1.length
    let attempt1 :=
      match r with
      | '.' :: r2 =>
        let d2 := r2.takeWhile Char.isDigit
        if d2 = [] then none
        else pctThTail (r2.drop d2.length) (d1 ++ '.' :: d2)
      | _ => none
    match attempt1 with
    | some x => some x
    | none => pctThTail r d1

/-- Fuelled scan of `re_percentile.finditer`. -/
def pctGo (fuel : Nat) (l : List Char) : List (List Char × List Char) :=
  match fuel with
  | 0 => []
  | fuel + 1 =>
    match l with
    | [] => []
    | c :: r =>
      match pctMatchAt (c :: r) with
      | some (p, rest) => p :: pctGo fuel rest
      | none => pctGo fuel r

/-- All `re_percentile` matches of a line. -/
def pctFinditer (l : List Char) : List (List Char × List Char) :=
  pctGo (l.length + 1) l

/-- The source's `parse_percentile_line`: prefixed percentile name (not
normalized) and stripped value. -/
def parse_percentile_line (s : String) (pfx : String) : List (String × String) :=
  (pctFinditer s.data).map fun p => (pfx ++ String.mk p.1, String.mk (stripL p.2))

/-- The pattern `^fio-([0-9.]+)` of `re_fio_version` (anchored `match`). -/
def fioVersionM (l : List Char) : Option (List Char) :=
  if ("fio-".data).isPrefixOf l then
    let d := (l.drop 4).takeWhile isNumDot
    if d = [] then none else some d
  else none

/-- The group `\s*(?P<x>.+)$`: greedy whitespace that must leave at least
one character for the group. -/
def wsThenRest (rest : List Char) : Option (List Char) :=
  if rest = [] then none
  else
    let t := rest.dropWhile isSpaceCh
    if t = [] then some (rest.drop (rest.length - 1)) else some t

/-- Tail `pid=(\d+):\s*(.+)$` of `re_group_jobs` after the error colon. -/
def gjPidTail (t : List Char) : Option (List Char × List Char) :=
  match lmatchCaseless "pid=".data (t.dropWhile isSpaceCh) with
  | some t3 =>
    let d := t3.takeWhile Char.isDigit
    if d = [] then none
    else
      match t3.drop d.length with
      | ':' :: t4 => (wsThenRest t4).map fun ts => (d, ts)
      | _ => none
  | none => none

/-- Part `\s*(?P<err>[^:]+):` of `re_group_jobs` after `err=`, then the pid
and timestamp tail; the greedy `\s*` must leave at least one character for
the error group. -/
def gjErrPart (t : List Char) : Option (List Char × List Char × List Char) :=
  let seg := t.takeWhile fun c => c ≠ ':'
  match t.drop seg.length with
  | ':' :: t2 =>
    if seg = [] then none
    else
      (gjPidTail t2).map fun p =>
        (seg.drop (min (seg.takeWhile isSpaceCh).length (seg.length - 1)), p.1, p.2)
  | _ => none

/-- Tail `.*err=...` of `re_group_jobs`: the greedy `.*` takes the
rightmost `err=` whose continuation matches. -/
def gjTail (r : List Char) : Option (List Char × List Char × List Char) :=
  (List.range (r.length + 1)).reverse.findSome? fun i =>
    match lmatchCaseless "err=".data (r.drop i) with
    | some t => gjErrPart t
    | none => none

/-- The pattern `re_group_jobs` =
`^(job): \(groupid=(\d+), jobs=(\d+)\):.*err=\s*([^:]+):\s*pid=(\d+):\s*(.+)$`
(under `re.I`), returning the six groups. -/
def groupJobsM (l : List Char) :
    Option (List Char × List Char × List Char × List Char × List Char × List Char) :=
  let j := l.takeWhile isJobCh
  if j = [] then none
  else
    match l.drop j.length with
    | ':' :: ' ' :: '(' :: r1 =>
      match lmatchCaseless "groupid=".data r1 with
      | some r2 =>
        let d1 := r2.takeWhile Char.isDigit
        if d1 = [] then none
        else
          match r2.drop d1.length with
          | ',' :: ' ' :: r3 =>
            match lmatchCaseless "jobs=".data r3 with
            | some r4 =>
              let d2 := r4.takeWhile Char.isDigit
              if d2 = [] then none
              else
                match r4.drop d2.length with
                | ')' :: ':' :: r5 =>
                  (gjTail r5).map fun p => (j, d1, d2, p.1, p.2.1, p.2.2)
                | _ => none
            | none => none
          | _ => none
      | none => none
    | _ => none

/-- Tail `.*iodepth=(\d+)` of `re_job_header`: rightmost occurrence with a
non-empty digit group. -/
def jhDepthTail (t : List Char) : Option (List Char) :=
  (List.range (t.length + 1)).reverse.findSome? fun i =>
    match lmatchCaseless "iodepth=".data (t.drop i) with
    | some t2 =>
      let d := t2.takeWhile Char.isDigit
      if d = [] then none else some d
    | none => none

/-- Tail `.*ioengine=([^,\s]+)...` of `re_job_header`: rightmost
occurrence, greedy value run shortened until the iodepth tail matches. -/
def jhEngineTail (t : List Char) : Option (List Char × List Char) :=
  (List.range (t.length + 1)).reverse.findSome? fun i =>
    match lmatchCaseless "ioengine=".data (t.drop i) with
    | some t2 =>
      let vmax := t2.takeWhile isValCh
      (List.range vmax.length).reverse.findSome? fun j =>
        (jhDepthTail (t2.drop (j + 1))).map fun d => (vmax.take (j + 1), d)
    | none => none

/-- Tail `.*rw=([^,\s]+)...` of `re_job_header`: rightmost occurrence,
greedy value run shortened until the rest matches. -/
def jhRwTail (t : List Char) : Option (List Char × List Char × List Char) :=
  (List.range (t.length + 1)).reverse.findSome? fun i =>
    match lmatchCaseless "rw=".data (t.drop i) with
    | some t2 =>
      let vmax := t2.takeWhile isValCh
      (List.range vmax.length).reverse.findSome? fun j =>
        (jhEngineTail (t2.drop (j + 1))).map fun p => (vmax.take (j + 1), p.1, p.2)
    | none => none

/-- The pattern `re_job_header` =
`^(job):.*rw=([^,\s]+).*ioengine=([^,\s]+).*iodepth=(\d+)` (under `re.I`),
returning job, rw, ioengine and iodepth groups. -/
def jobHeaderM (l : List Char) :
    Option (List Char × List Char × List Char × List Char) :=
  let j := l.takeWhile isJobCh
  if j = [] then none
  else
    match l.drop j.length with
    | ':' :: r => (jhRwTail r).map fun p => (j, p.1, p.2.1, p.2.2)
    | _ => none

/-- Leftmost `re.search` of `<pat>\s*([^,\s]+)` with a caseless literal:
the block-size patterns `re_bs_r`, `re_bs_w`, `re_bs_t`. -/
def litThenVal (pat : String) : List Char → Option (List Char)
  | [] => none
  | c :: r =>
    match lmatchCaseless pat.data (c :: r) with
    | some t =>
      let v := (t.dropWhile isSpaceCh).takeWhile isValCh
      if v = [] then litThenVal pat r else some v
    | none => litThenVal pat r

/-- Leftmost `re.search` of `<pat>([^ ]+)` with a case-sensitive literal:
the `total=`/`short=`/`dropped=` sub-patterns of the issued-rwts line. -/
def litThenNonSpace (pat : String) : List Char → Option (List Char)
  | [] => none
  | c :: r =>
    if (pat.data).isPrefixOf (c :: r) then
      let v := ((c :: r).drop pat.data.length).takeWhile fun x => x ≠ ' '
      if v = [] then litThenNonSpace pat r else some v
    else litThenNonSpace pat r

/-- The parenthesized part `\((\d+) file[s]? / ([^)]+)\)` of `re_layout`
at one position. -/
def layoutParen (t : List Char) : Option (List Char × List Char) :=
  match t with
  | '(' :: t2 =>
    let d := t2.takeWhile Char.isDigit
    if d = [] then none
    else
      let t3 := t2.drop d.length
      if (" file".data).isPrefixOf t3 then
        let t4 := t3.drop 5
        let t5 := match t4 with
          | 's' :: tt => tt
          | _ => t4
        if (" / ".data).isPrefixOf t5 then
          let t6 := t5.drop 3
          let seg := t6.takeWhile fun c => c ≠ ')'
          match t6.drop seg.length with
          | ')' :: _ => if seg = [] then none else some (d, seg)
          | _ => none
        else none
      else none
  | _ => none

/-- The pattern `re_layout` = `Laying out IO file.*\((\d+) file[s]? /
([^)]+)\)`: leftmost literal occurrence whose tail (rightmost-first over
`(` positions) completes the match. -/
def layoutM : List Char → Option (List Char × List Char)
  | [] => none
  | c :: r =>
    if ("Laying out IO file".data).isPrefixOf (c :: r) then
      let t := (c :: r).drop 18
      match (List.range (t.length + 1)).reverse.findSome? (fun i => layoutParen (t.drop i)) with
      | some x => some x
      | none => layoutM r
    else layoutM r

/-- The pattern `re_disk_dev` = `^([A-Za-z0-9_-]+):\s*(.+)` (anchored
`match`). -/
def diskDevM (l : List Char) : Option (List Char × List Char) :=
  let dev := l.takeWhile isDevCh
  if dev = [] then none
  else
    match l.drop dev.length with
    | ':' :: t => (wsThenRest t).map fun rest => (dev, rest)
    | _ => none

/-- The source's `parse_disk_stats`: key=value pairs of the rest of a
device line; a value with a slash (a comma is impossible inside an `re_kv`
value) splits into `_read`/`_write` entries. -/
def parse_disk_stats (dev : List Char) (rest : List Char) : List (String × String) :=
  (kvFinditer rest).foldr
    (fun p acc =>
      let k := normalize_key (String.mk p.1)
      let v := stripL p.2
      let devS := String.mk dev
      if v.contains '/' && !(v.contains ',') then
        ("disk_" ++ devS ++ "_" ++ k ++ "_read", String.mk (stripL (splitFirst '/' v).1)) ::
        ("disk_" ++ devS ++ "_" ++ k ++ "_write", String.mk (stripL (splitFirst '/' v).2)) :: acc
      else ("disk_" ++ devS ++ "_" ++ k, String.mk v) :: acc)
    []

/-- Python `sline.split(':', 1)[1]`: everything after the first colon; an
`IndexError` escapes when the line has no colon. -/
def afterColon (s : String) : Except Unit String :=
  if s.data.contains ':' then Except.ok (String.mk (splitFirst ':' s.data).2)
  else Except.error ()

/-! ## Metric extractor: the line-classification cascade -/

/-- Which branch of `parse_file`'s per-line `if`/`elif` cascade fires, in
source order.  `latUsecDead` is the source's second, unreachable
`startswith('lat (usec)')` branch. -/
inductive LineRule where
  | blank | fioVersion | layout | groupJobs | jobHeader | clatHeader | pctRow
  | runRead | runWrite | readLine | writeLine | slatLine | clatLine
  | latUsecLine | latMsecLine | bwLine | iopsLine | latUsecDead
  | cpuLine | ioDepthsLine | submitLine | completeLine | issuedLine
  | latencyLine | diskHeader | diskLine | fallback
deriving DecidableEq

/-- The cascade's dispatch: the first condition of the source's chain that
holds for the (stripped) line, given the percentile-block and disk-section
flags. -/
def lineRule (pctClat diskSection : Bool) (sline : String) : LineRule :=
  if sline = "" then LineRule.blank
  else if (fioVersionM sline.data).isSome then LineRule.fioVersion
  else if containsSub sline.data "Laying out IO file".data then LineRule.layout
  else if (groupJobsM sline.data).isSome then LineRule.groupJobs
  else if (jobHeaderM sline.data).isSome then LineRule.jobHeader
  else if lstartsWith (lowerL sline.data) "clat percentiles" then LineRule.clatHeader
  else if pctClat && lstartsWith sline.data "|" then LineRule.pctRow
  else if lstartsWith (sline.data.dropWhile isSpaceCh) "READ:" then LineRule.runRead
  else if lstartsWith (sline.data.dropWhile isSpaceCh) "WRITE:" then LineRule.runWrite
  else if lstartsWith sline.data "read:" then LineRule.readLine
  else if lstartsWith sline.data "write:" then LineRule.writeLine
  else if lstartsWith sline.data "slat" then LineRule.slatLine
  else if lstartsWith sline.data "clat" && !(containsSub (lowerL sline.data) "percentiles".data) then
    LineRule.clatLine
  else if lstartsWith sline.data "lat (usec)" then LineRule.latUsecLine
  else if lstartsWith sline.data "lat (msec)" then LineRule.latMsecLine
  else if lstartsWith sline.data "bw (" then LineRule.bwLine
  else if lstartsWith sline.data "iops" && containsSub sline.data "iops".data then LineRule.iopsLine
  else if lstartsWith sline.data "lat (usec)" then LineRule.latUsecDead
  else if lstartsWith sline.data "cpu" then LineRule.cpuLine
  else if lstartsWith sline.data "IO depths" then LineRule.ioDepthsLine
  else if lstartsWith sline.data "submit" then LineRule.submitLine
  else if lstartsWith sline.data "complete" then LineRule.completeLine
  else if containsSub sline.data "issued rwts".data then LineRule.issuedLine
  else if lstartsWith sline.data "latency" then LineRule.latencyLine
  else if containsSub sline.data "Disk stats".data then LineRule.diskHeader
  else if diskSection && (diskDevM sline.data).isSome then LineRule.diskLine
  else LineRule.fallback

/-- Entries of one line: the handler of the branch selected by `lineRule`.
The prefix-dispatched handlers slice the line after its first colon, which
raises `IndexError` on a line without one (faithful to the source's
`split(':', 1)[1]`). -/
def processLine (pctClat diskSection : Bool) (sline : String) :
    Except Unit (List (String × String)) :=
  let l := sline.data
  match lineRule pctClat diskSection sline with
  | LineRule.blank => Except.ok []
  | LineRule.fioVersion =>
    Except.ok (match fioVersionM l with
      | some d => [("fio_version", String.mk d)]
      | none => [])
  | LineRule.layout =>
    Except.ok (match layoutM l with
      | some p => [("layout_files", String.mk p.1), ("layout_size", String.mk p.2)]
      | none => [])
  | LineRule.groupJobs =>
    Except.ok (match groupJobsM l with
      | some (j, g, js, e, pid, ts) =>
        [("job_name", String.mk j), ("groupid", String.mk g), ("jobs", String.mk js),
         ("err", String.mk e), ("pid", String.mk pid), ("timestamp", String.mk ts)]
      | none => [])
  | LineRule.jobHeader =>
    Except.ok (match jobHeaderM l with
      | some (j, rw, eng, dep) =>
        [("job_name", String.mk j), ("rw", String.mk rw),
         ("ioengine", String.mk eng), ("iodepth", String.mk dep)] ++
        (match litThenVal "bs=(r)" l with
          | some v => [("bs_r", String.mk v)]
          | none => []) ++
        (match litThenVal "(w)" l with
          | some v => [("bs_w", String.mk v)]
          | none => []) ++
        (match litThenVal "(t)" l with
          | some v => [("bs_t", String.mk v)]
          | none => [])
      | none => [])
  | LineRule.clatHeader => Except.ok []
  | LineRule.pctRow => Except.ok (parse_percentile_line sline "clat_pct_")
  | LineRule.runRead => Except.ok (parse_kv_list sline "run_read_")
  | LineRule.runWrite => Except.ok (parse_kv_list sline "run_write_")
  | LineRule.readLine => (afterColon sline).map fun t => parse_kv_list t "read_"
  | LineRule.writeLine => (afterColon sline).map fun t => parse_kv_list t "write_"
  | LineRule.slatLine => (afterColon sline).map fun t => parse_kv_list t "slat_"
  | LineRule.clatLine => (afterColon sline).map fun t => parse_kv_list t "clat_"
  | LineRule.latUsecLine => (afterColon sline).map fun t => parse_kv_list t "lat_usec_"
  | LineRule.latMsecLine => (afterColon sline).map fun t => parse_kv_list t "lat_msec_"
  | LineRule.bwLine => (afterColon sline).map fun t => parse_kv_list t "bw_"
  | LineRule.iopsLine => (afterColon sline).map fun t => parse_kv_list t "iops_"
  | LineRule.latUsecDead => (afterColon sline).map fun t => parse_kv_list t "lat_usecpct_"
  | LineRule.cpuLine => (afterColon sline).map fun t => parse_kv_list t "cpu_"
  | LineRule.ioDepthsLine => (afterColon sline).map fun t => parse_kv_list t "iodepth_dist_"
  | LineRule.submitLine => (afterColon sline).map fun t => parse_kv_list t "submit_"
  | LineRule.completeLine => (afterColon sline).map fun t => parse_kv_list t "complete_"
  | LineRule.issuedLine =>
    Except.ok
      ((match litThenNonSpace "total=" l with
        | some v => [("issued_total", String.mk v)]
        | none => []) ++
       (match litThenNonSpace "short=" l with
        | some v => [("issued_short", String.mk v)]
        | none => []) ++
       (match litThenNonSpace "dropped=" l with
        | some v => [("issued_dropped", String.mk v)]
        | none => []))
  | LineRule.latencyLine => (afterColon sline).map fun t => parse_kv_list t "latency_cfg_"
  | LineRule.diskHeader => Except.ok []
  | LineRule.diskLine =>
    Except.ok (match diskDevM l with
      | some (dev, rest) => parse_disk_stats dev rest
      | none => [])
  | LineRule.fallback => Except.ok (parse_kv_list sline "")

/-- State update of one cascade step: a blank line clears both flags, the
percentiles header sets the percentile flag, the disk-stats header sets
the disk flag. -/
def nextFlags (pctClat diskSection : Bool) (rule : LineRule) : Bool × Bool :=
  if rule = LineRule.blank then (false, false)
  else if rule = LineRule.clatHeader then (true, diskSection)
  else if rule = LineRule.diskHeader then (pctClat, true)
  else (pctClat, diskSection)

/-- The loop of the source's `parse_file` at the key/value level: strip
each raw line, dispatch it, thread the two flags. -/
def parseLinesKV : Bool → Bool → List String → Except Unit (List (String × String))
  | _, _, [] => Except.ok []
  | pct, disk, ln :: rest =>
    let sline := String.mk (stripL ln.data)
    let rule := lineRule pct disk sline
    let flags := nextFlags pct disk rule
    match processLine pct disk sline with
    | Except.error e => Except.error e
    | Except.ok entries =>
      match parseLinesKV flags.1 flags.2 rest with
      | Except.error e => Except.error e
      | Except.ok more => Except.ok (entries ++ more)

/-- The source's `parse_file`: the emitted text lines, in order. -/
def parse_file (lines : List String) : Except Unit (List String) :=
  (parseLinesKV false false lines).map fun entries => entries.map fun p => emit p.1 p.2

/-! ## Basic lemmas about the splitter state machine -/

/-- Every record the flush emits carries a non-empty metrics mapping. -/
theorem flushState_inv (st : SplitState)
    (h : ∀ r ∈ st.records, r.metrics ≠ []) :
    ∀ r ∈ (flushState st).records, r.metrics ≠ [] := by
  intro r hr
  unfold flushState at hr
  rcases hrun : st.run_num with _ | n <;> rcases hfile : st.current_file with _ | f <;>
    simp only [hrun, hfile] at hr
  · exact h r hr
  · exact h r hr
  · exact h r hr
  · split at hr
    · rcases List.mem_append.mp hr with h1 | h2
      · exact h r h1
      · rcases List.mem_singleton.mp h2 with rfl
        simpa using ‹st.current_metrics ≠ []›
    · exact h r hr

/-- One splitter step preserves the non-empty-metrics invariant. -/
theorem splitStep_inv (st : SplitState) (line : String)
    (h : ∀ r ∈ st.records, r.metrics ≠ []) :
    ∀ r ∈ (splitStep st line).records, r.metrics ≠ [] := by
  intro r hr
  unfold splitStep at hr
  split at hr
  · rcases hm : runNumSearch line.data with _ | n <;> simp only [hm] at hr
    · exact flushState_inv st h r hr
    · exact flushState_inv st h r hr
  · split at hr
    · exact flushState_inv st h r hr
    · rcases hkv : parse_key_val line with _ | kv <;> simp only [hkv] at hr
      · exact h r hr
      · exact h r hr

/-- The splitter fold preserves the non-empty-metrics invariant. -/
theorem splitFold_inv (lines : List String) :
    ∀ st : SplitState, (∀ r ∈ st.records, r.metrics ≠ []) →
      ∀ r ∈ (lines.foldl splitStep st).records, r.metrics ≠ [] := by
  induction lines with
  | nil => intro st h; exact h
  | cons l rest ih =>
    intro st h
    exact ih (splitStep st l) (splitStep_inv st l h)

/-- C5: the splitter only emits records with a non-empty metrics mapping
(a block with zero metric lines is never flushed into a record), the
trailing block is flushed at end of input, and a discarded empty block does
not prevent the following run from being parsed: `RUN #1`, `-- a.txt --`
with no metrics, then `RUN #2` with a file and one metric yields exactly
the single run-2 record. -/
theorem parse_consolidated_flush_discipline :
    (∀ (lines : List String) (r : Record), r ∈ parse_consolidated lines → r.metrics ≠ [])
  ∧ parse_consolidated ["~~~~~~~ RUN #1 ~~~~~~~", "-- a.txt --",
      "~~~~~~~ RUN #2 ~~~~~~~", "-- b.txt --", "k = v"] =
      [{ run := 2, file := "b.txt", job_name := none, metrics := [("k", "v")] }] := by
  constructor
  · intro lines r hr
    unfold parse_consolidated at hr
    exact flushState_inv _ (splitFold_inv lines _ (by simp)) r hr
  · decide

/-- Witness for C5: the flush-discipline theorem applied to the concrete
consolidated input above. -/
theorem parse_consolidated_flush_discipline_witness :
    ({ run := 2, file := "b.txt", job_name := none,
       metrics := [("k", "v")] } : Record).metrics ≠ [] := by
  have h := parse_consolidated_flush_discipline
  exact h.1 ["~~~~~~~ RUN #1 ~~~~~~~", "-- a.txt --", "~~~~~~~ RUN #2 ~~~~~~~",
    "-- b.txt --", "k = v"] _ (h.2 ▸ List.mem_singleton.mpr rfl)

/-- Looking up a key just written always returns the written value. -/
theorem dget_dinsert (m : List (String × String)) (k v : String) :
    dget (dinsert m k v) k = some v := by
  induction m with
  | nil => simp [dinsert, dget]
  | cons p r ih =>
    unfold dinsert
    split
    · simp [dget]
    · simp [dget, *]

/-- C8: within one record the metrics mapping is last-value-wins — a fresh
write always shadows any earlier value for the same key, and a concrete
run/file block containing `k = 1` then `k = 2` produces the single record
whose mapping holds `2` for `k`. -/
theorem record_duplicate_keys_last_wins :
    (∀ (m : List (String × String)) (k v : String), dget (dinsert m k v) k = some v)
  ∧ parse_consolidated ["~~~~~~~ RUN #1 ~~~~~~~", "-- a.txt --", "k = 1", "k = 2"] =
      [{ run := 1, file := "a.txt", job_name := none, metrics := [("k", "2")] }] := by
  exact ⟨dget_dinsert, by decide⟩

/-- C1 (code bug evidence): on a metric string whose first rate token has a
malformed number (`[0-9.]+` admits two decimal points), the bandwidth and
IOPS parsers let the `ValueError` of `float` escape instead of yielding an
absent value; well-formed and token-free strings behave totally. -/
theorem bw_iops_uncaught_valueerror :
    bw_to_gbps "1.2.3MiB/s" = Except.error ()
  ∧ iops_to_k "1.2.3k" = Except.error ()
  ∧ bw_to_gbps "no rate token" = Except.ok none
  ∧ iops_to_k "xyz" = Except.ok none := by
  refine ⟨rfl, rfl, rfl, rfl⟩

/-- C4: Little's-law latency is `(iodepth / iops) * 1000`, produced exactly
when both inputs are present and the IOPS figure is strictly positive;
every absent or non-positive case yields `none`, and the documented
instance iodepth = 32, iops_k = 84.4 gives 32000 / 84400 = 80/211 ms. -/
theorem derive_latency_ms_spec (k d : ℚ) :
    derive_latency_ms (some k) (some d) =
      (if 0 < k then some (d / (k * 1000) * 1000) else none)
  ∧ derive_latency_ms none (some d) = none
  ∧ derive_latency_ms (some k) none = none
  ∧ derive_latency_ms none none = none
  ∧ derive_latency_ms (some (844 / 10)) (some 32) = some (80 / 211) := by
  refine ⟨?_, rfl, rfl, rfl, ?_⟩
  · by_cases hk : 0 < k
    · have hpos : ¬(k * 1000 ≤ 0) := not_le.mpr (by positivity)
      simp [derive_latency_ms, hpos, hk]
    · have hnp : k * 1000 ≤ 0 := by nlinarith [le_of_not_lt hk]
      simp [derive_latency_ms, hnp, hk]
  · simp only [derive_latency_ms]
    norm_num

/-- C6 (code bug evidence): the IOPS normalizer converts `84.4k` to 84.4
kIOPS and a bare `50221.53` to 50.22153 kIOPS (50.222 when rounded to
three decimals), returns no value when the leading token is not numeric —
but on a leading token made only of dots (matched by `[0-9.]+` yet not a
float literal) the `ValueError` of `float` escapes uncaught. -/
theorem iops_to_k_eval :
    iops_to_k "." = Except.error ()
  ∧ iops_to_k "84.4k" = Except.ok (some (422 / 5))
  ∧ iops_to_k "50221.53" = Except.ok (some (5022153 / 100000))
  ∧ round ((5022153 : ℚ) / 100000 * 1000) = 50222
  ∧ iops_to_k "abc" = Except.ok none := by
  refine ⟨rfl, by decide, by decide, ?_, rfl⟩
  rw [round_eq]
  norm_num

/-- C3 counterexample: with `run_read_bw` present but unparseable (`"x"`)
and `read_bw` present and parseable (`"165MiB/s"`), the summarizer yields
no bandwidth at all — the later-preference field is never consulted — even
though `read_bw` alone would have parsed. -/
theorem bw_preference_counterexample :
    (summarize_record (Record.mk 1 "f" none
        [("run_read_bw", "x"), ("read_bw", "165MiB/s")])).map
      (fun s => s.throughput_GBps) = Except.ok none
  ∧ bw_to_gbps "165MiB/s" = Except.ok (some (165 * 1024 ^ 2 / 1000000000)) := by
  exact ⟨by decide, by decide⟩

/-- C3 amended: bandwidth preference is by field presence, not by
parseability — the first field whose key is present among `run_read_bw`,
`run_write_bw`, `read_bw`, `write_bw` is the only one ever given to
`bw_to_gbps`, regardless of its content. Four exhaustive cases: the chosen
field is non-empty and parses to x, which is the resolved bandwidth
(`bw_avg` not consulted); the chosen field is non-empty but fails to
parse, and the result is the `bw_avg` fallback (float of `bw_avg` × 1024
/ 1e9 when present and parseable, absent otherwise); the chosen field is
the empty string (falsy in Python), which still blocks the later fields
and routes to the `bw_avg` fallback; none of the four keys is present,
and the result is again the `bw_avg` fallback with no source field. -/
theorem resolve_bw_presence_preference (m : List (String × String)) :
    (∀ (v : String) (x : ℚ),
        first_available m ["run_read_bw", "run_write_bw", "read_bw", "write_bw"] = some v →
        v ≠ "" → bw_to_gbps v = Except.ok (some x) →
        resolve_bw m = Except.ok (some v, some x))
  ∧ (∀ v : String,
        first_available m ["run_read_bw", "run_write_bw", "read_bw", "write_bw"] = some v →
        v ≠ "" → bw_to_gbps v = Except.ok none →
        resolve_bw m = Except.ok (some v, bwAvgFallback m))
  ∧ (first_available m ["run_read_bw", "run_write_bw", "read_bw", "write_bw"] = some "" →
        resolve_bw m = Except.ok (some "", bwAvgFallback m))
  ∧ (first_available m ["run_read_bw", "run_write_bw", "read_bw", "write_bw"] = none →
        resolve_bw m = Except.ok (none, bwAvgFallback m)) := by
  refine ⟨?_, ?_, ?_, ?_⟩
  · intro v x h1 h2 hx
    simp [resolve_bw, h1, h2, hx]
  · intro v h1 h2 hx
    simp [resolve_bw, h1, h2, hx]
  · intro h1
    simp [resolve_bw, h1]
  · intro h1
    simp [resolve_bw, h1]

/-- Witness for C3: on a record whose first-preference `run_read_bw` is
unparseable, with a parseable `read_bw` behind it and `bw_avg` = 1000, the
parse-failure conjunct applies: the later field is never consulted and the
resolved bandwidth is the `bw_avg` fallback 1000 × 1024 / 1e9. -/
theorem resolve_bw_presence_preference_witness :
    resolve_bw [("run_read_bw", "x"), ("read_bw", "165MiB/s"), ("bw_avg", "1000")]
      = Except.ok (some "x",
          bwAvgFallback [("run_read_bw", "x"), ("read_bw", "165MiB/s"), ("bw_avg", "1000")])
  ∧ bwAvgFallback [("run_read_bw", "x"), ("read_bw", "165MiB/s"), ("bw_avg", "1000")]
      = some (128 / 125000) :=
  ⟨(resolve_bw_presence_preference
      [("run_read_bw", "x"), ("read_bw", "165MiB/s"), ("bw_avg", "1000")]).2.1
    "x" (by decide) (by decide) (by decide),
   by decide⟩

/-! ## Refinement of the bandwidth parser against the specification
scanner (C2) -/
theorem slashS_nil : slashS [] = false := by
  unfold slashS
  rfl

theorem slashS_single (c : Char) : slashS [c] = false := by
  unfold slashS
  split
  · simp_all
  · rfl

theorem findSome?_cons_optOr {α : Type} (f : α → Option ℚ) (a : α) (l : List α) :
    (a :: l).findSome? f = optOr (f a) (l.findSome? f) := by
  cases h : f a <;> simp [List.findSome?_cons, h, optOr]

theorem match_eq_postSlash (q : ℚ) (o : Option (List Char)) :
    (match o with
     | some r => if slashS r then some q else none
     | none => none) = postSlash q o := by
  cases o <;> rfl

theorem postSlash_ite (q : ℚ) (c : Prop) [Decidable c] (a b : Option (List Char)) :
    postSlash q (if c then a else b) = if c then postSlash q a else postSlash q b :=
  apply_ite (postSlash q) c a b

theorem postSlash_some (q : ℚ) (r : List Char) :
    postSlash q (some r) = if slashS r then some q else none := rfl

theorem postSlash_none (q : ℚ) : postSlash q none = none := rfl

theorem optOr_some (x : ℚ) (b : Option ℚ) : optOr (some x) b = some x := rfl

theorem optOr_none (b : Option ℚ) : optOr none b = b := rfl

theorem optOr_none_right (a : Option ℚ) : optOr a none = a := by
  cases a <;> rfl

theorem codeUnitFactor_eq (l : List Char) :
    codeUnitFactor l = postSlashU (unitMatch l) := by
  rcases h : unitMatch l with _ | ⟨u, r⟩ <;> simp [codeUnitFactor, postSlashU, h]

theorem postSlashU_ite (c : Prop) [Decidable c] (a b : Option (List Char × List Char)) :
    postSlashU (if c then a else b) = if c then postSlashU a else postSlashU b :=
  apply_ite postSlashU c a b

theorem postSlashU_some (u r : List Char) :
    postSlashU (some (u, r)) = if slashS r then some (bwFactor (lowerL u)) else none := rfl

theorem postSlashU_none : postSlashU none = none := rfl

set_option maxHeartbeats 1000000 in
theorem bwFactor_kib : bwFactor ['k', 'i', 'b'] = 1024 := by decide

set_option maxHeartbeats 1000000 in
theorem bwFactor_mib : bwFactor ['m', 'i', 'b'] = 1024 ^ 2 := by decide

set_option maxHeartbeats 1000000 in
theorem bwFactor_gib : bwFactor ['g', 'i', 'b'] = 1024 ^ 3 := by decide

set_option maxHeartbeats 1000000 in
theorem bwFactor_tib : bwFactor ['t', 'i', 'b'] = 1024 ^ 4 := by decide

set_option maxHeartbeats 1000000 in
theorem bwFactor_pib : bwFactor ['p', 'i', 'b'] = 1 := by decide

set_option maxHeartbeats 1000000 in
theorem bwFactor_kb : bwFactor ['k', 'b'] = 1000 := by decide

set_option maxHeartbeats 1000000 in
theorem bwFactor_mb : bwFactor ['m', 'b'] = 1000000 := by decide

set_option maxHeartbeats 1000000 in
theorem bwFactor_gb : bwFactor ['g', 'b'] = 1000000000 := by decide

set_option maxHeartbeats 1000000 in
theorem bwFactor_tb : bwFactor ['t', 'b'] = 1000000000000 := by decide

set_option maxHeartbeats 1000000 in
theorem bwFactor_pb : bwFactor ['p', 'b'] = 1 := by decide

set_option maxHeartbeats 1000000 in
theorem bwFactor_ib : bwFactor ['i', 'b'] = 1 := by decide

set_option maxHeartbeats 1000000 in
theorem bwFactor_b : bwFactor ['b'] = 1 := by decide

set_option maxHeartbeats 2000000 in
theorem unitFactorEq (l : List Char) : codeUnitFactor l = specUnitAt l := by
  rcases l with _ | ⟨c1, _ | ⟨c2, _ | ⟨c3, r⟩⟩⟩
  · decide
  · by_cases hb : lowerCh c1 = 'b' <;>
      simp [specUnitAt, unitTable, findSome?_cons_optOr, match_eq_postSlash,
        lmatchCaseless, postSlash_ite, postSlash_some, postSlash_none,
        optOr_some, optOr_none, slashS_nil, slashS_single,
        codeUnitFactor_eq, unitMatch, postSlashU_ite, postSlashU_some, postSlashU_none,
        isPfxCh, isICh, isBCh, hb]
  · simp [specUnitAt, unitTable, findSome?_cons_optOr, match_eq_postSlash,
      lmatchCaseless, postSlash_ite, postSlash_some, postSlash_none,
      optOr_some, optOr_none, slashS_nil, slashS_single,
      codeUnitFactor_eq, unitMatch, postSlashU_ite, postSlashU_some, postSlashU_none,
      isPfxCh, isICh, isBCh]
  · by_cases h1k : lowerCh c1 = 'k' <;>
    by_cases h1m : lowerCh c1 = 'm' <;>
    by_cases h1g : lowerCh c1 = 'g' <;>
    by_cases h1t : lowerCh c1 = 't' <;>
    by_cases h1p : lowerCh c1 = 'p' <;>
    by_cases h1i : lowerCh c1 = 'i' <;>
    by_cases h1b : lowerCh c1 = 'b' <;>
    by_cases h2i : lowerCh c2 = 'i' <;>
    by_cases h2b : lowerCh c2 = 'b' <;>
    by_cases h3b : lowerCh c3 = 'b' <;>
    simp_all [specUnitAt, unitTable, findSome?_cons_optOr, match_eq_postSlash,
      lmatchCaseless, postSlash_ite, postSlash_some, postSlash_none,
      optOr_some, optOr_none, optOr_none_right, slashS_nil, slashS_single,
      codeUnitFactor_eq, unitMatch, postSlashU_ite, postSlashU_some, postSlashU_none,
      isPfxCh, isICh, isBCh, lowerL,
      bwFactor_kib, bwFactor_mib, bwFactor_gib, bwFactor_tib, bwFactor_pib,
      bwFactor_kb, bwFactor_mb, bwFactor_gb, bwFactor_tb, bwFactor_pb,
      bwFactor_ib, bwFactor_b]

theorem matchAtEq (l : List Char) : codeMatchFactor l = specMatchAt l := by
  unfold codeMatchFactor sizeMatchAt specMatchAt
  by_cases h : l.takeWhile isNumDot = []
  · simp [h]
  · have hu := unitFactorEq ((l.drop (l.takeWhile isNumDot).length).dropWhile isSpaceCh)
    rw [codeUnitFactor_eq] at hu
    simp only [h, if_false, ite_false]
    rw [← hu]
    rcases hm : unitMatch ((l.drop (l.takeWhile isNumDot).length).dropWhile isSpaceCh) with
      _ | ⟨u, rr⟩
    · simp [postSlashU]
    · by_cases hs : slashS rr <;> simp [postSlashU, hs]

theorem searchEq (l : List Char) :
    (sizeSearch l).map (fun p => (p.1, bwFactor (lowerL p.2))) = specSearch l := by
  induction l with
  | nil => rfl
  | cons c r ih =>
    unfold sizeSearch specSearch
    rw [← matchAtEq (c :: r)]
    unfold codeMatchFactor
    rcases hs : sizeMatchAt (c :: r) with _ | ⟨num, u⟩
    · simpa using ih
    · simp

theorem bw_refines (s : String) : bw_to_gbps s = bw_to_gbps_spec s := by
  unfold bw_to_gbps bw_to_gbps_spec
  rw [← searchEq s.data]
  rcases hs : sizeSearch s.data with _ | ⟨num, u⟩
  · simp
  · rcases hf : pyFloatL num with _ | n <;> simp

set_option maxHeartbeats 1000000 in
/-- C2 counterexample: the string `5B/s` contains no token with one of the
eight binary/decimal units, yet the parser accepts the bare `B/s` (factor
1, bytes per second) and returns 5e-9 GB/s rather than no value. -/
theorem bw_unit_class_counterexample :
    bw_to_gbps "5B/s" = Except.ok (some (1 / 200000000)) := by decide

set_option maxHeartbeats 1000000 in
/-- C2 amended: the bandwidth parser coincides, on every input string,
with the specification-side scanner whose unit class is `[KMGTP]?i?B`
(the eight listed units with their binary/decimal multipliers, and the
remaining spellings `B`, `iB`, `PB`, `PiB` with multiplier 1, no value
exactly when no such token occurs, an error when the matched number is not
a float literal); in particular `165MiB/s` converts with the binary
multiplier and `103MB/s` with the decimal one. -/
theorem bw_to_gbps_amended :
    (∀ s : String, bw_to_gbps s = bw_to_gbps_spec s)
  ∧ bw_to_gbps "165MiB/s" = Except.ok (some (165 * 1024 ^ 2 / 1000000000))
  ∧ bw_to_gbps "103MB/s" = Except.ok (some (103 / 1000)) := by
  exact ⟨bw_refines, by decide, by decide⟩

/-! ## Key-normalization idempotence (C9) -/
theorem char_le_toNat {a b : Char} : a ≤ b ↔ a.toNat ≤ b.toNat := by
  rw [Char.le_def, UInt32.le_def, BitVec.le_def]
  rfl

theorem toNat_ofNat_valid (n : Nat) (h : n < 55296) : (Char.ofNat n).toNat = n := by
  rw [Char.ofNat, dif_pos (Or.inl h)]
  simp [Char.toNat, Char.ofNatAux, UInt32.ofNat', UInt32.toNat, BitVec.toNat_ofNatLt]

theorem char_eq_toNat {a b : Char} : a = b ↔ a.toNat = b.toNat := by
  constructor
  · intro h
    rw [h]
  · intro h
    exact Char.ext (UInt32.toNat.inj h)

theorem goodOut_lowerCh (c : Char) (h : isKeySafe c = true) :
    goodOut (lowerCh c) = true := by
  by_cases hu : ('A' ≤ c && c ≤ 'Z') = true
  · have h65 : 65 ≤ c.toNat ∧ c.toNat ≤ 90 := by
      have := hu
      simp only [Bool.and_eq_true, decide_eq_true_eq, char_le_toNat] at this
      simpa using this
    have hv : (Char.ofNat (c.toNat + 32)).toNat = c.toNat + 32 :=
      toNat_ofNat_valid _ (by omega)
    simp only [lowerCh, hu, if_true, goodOut, isKeySafe]
    simp only [Bool.and_eq_true, Bool.or_eq_true, decide_eq_true_eq, Bool.not_eq_true',
      Bool.and_eq_false_iff, decide_eq_false_iff_not, char_le_toNat, char_eq_toNat, hv,
      show ('A').toNat = 65 from rfl, show ('Z').toNat = 90 from rfl,
      show ('a').toNat = 97 from rfl, show ('z').toNat = 122 from rfl,
      show ('0').toNat = 48 from rfl, show ('9').toNat = 57 from rfl,
      show ('_').toNat = 95 from rfl, show ('.').toNat = 46 from rfl,
      show ('-').toNat = 45 from rfl]
    omega
  · have hu' : ('A' ≤ c && c ≤ 'Z') = false := by simpa using hu
    simp [lowerCh, hu', goodOut, h]

theorem goodOut_spec (c : Char) (h : goodOut c = true) :
    lowerCh c = c ∧ isSpaceCh c = false ∧ isWsColon c = false ∧ isKeySafe c = true ∧
    c ≠ '(' ∧ c ≠ ')' ∧ c ≠ '%' ∧ c ≠ '/' := by
  have hparts : isKeySafe c = true ∧ ('A' ≤ c && c ≤ 'Z') = false := by
    simp only [goodOut, Bool.and_eq_true, Bool.not_eq_true'] at h
    exact h
  obtain ⟨hs, hu⟩ := hparts
  have hspace : isSpaceCh c = false := by
    cases hc : isSpaceCh c
    · rfl
    · exfalso
      simp only [isSpaceCh, Bool.or_eq_true, decide_eq_true_eq] at hc
      rcases hc with ((((h' | h') | h') | h') | h') | h' <;> subst h' <;>
        exact absurd hs (by decide)
  refine ⟨?_, hspace, ?_, hs, ?_, ?_, ?_, ?_⟩
  · simp [lowerCh, hu]
  · simp only [isWsColon, hspace, Bool.false_or]
    cases hc : decide (c = ':')
    · rfl
    · exfalso
      have h' := of_decide_eq_true hc
      subst h'
      exact absurd hs (by decide)
  · intro h'
    subst h'
    exact absurd hs (by decide)
  · intro h'
    subst h'
    exact absurd hs (by decide)
  · intro h'
    subst h'
    exact absurd hs (by decide)
  · intro h'
    subst h'
    exact absurd hs (by decide)

theorem data_mk (l : List Char) : (String.mk l).data = l := rfl

theorem allGood_cons {c : Char} {r : List Char} (h : allGood (c :: r)) :
    goodOut c = true ∧ allGood r :=
  ⟨h c (by simp), fun x hx => h x (by simp [hx])⟩

theorem dropWhile_of_allGood (l : List Char) (h : allGood l) :
    l.dropWhile isSpaceCh = l := by
  cases l with
  | nil => rfl
  | cons c r =>
    rw [List.dropWhile_cons, (goodOut_spec c (allGood_cons h).1).2.1]
    simp

theorem stripL_of_allGood (l : List Char) (h : allGood l) : stripL l = l := by
  unfold stripL
  rw [dropWhile_of_allGood l h,
    dropWhile_of_allGood l.reverse (fun c hc => h c (List.mem_reverse.mp hc)),
    List.reverse_reverse]

theorem filterParen1_of_allGood (l : List Char) (h : allGood l) :
    (l.filter fun c => c ≠ '(') = l :=
  List.filter_eq_self.mpr fun c hc => by
    simp [(goodOut_spec c (h c hc)).2.2.2.2.1]

theorem filterParen2_of_allGood (l : List Char) (h : allGood l) :
    (l.filter fun c => c ≠ ')') = l :=
  List.filter_eq_self.mpr fun c hc => by
    simp [(goodOut_spec c (h c hc)).2.2.2.2.2.1]

theorem pctExpand_of_allGood (l : List Char) (h : allGood l) : pctExpand l = l := by
  induction l with
  | nil => rfl
  | cons c r ih =>
    rw [pctExpand, if_neg]
    · rw [ih (allGood_cons h).2]
    · exact (goodOut_spec c (allGood_cons h).1).2.2.2.2.2.2.1

theorem mapSlash_of_allGood (l : List Char) (h : allGood l) :
    (l.map fun c => if c = '/' then '_' else c) = l := by
  induction l with
  | nil => rfl
  | cons c r ih =>
    simp only [List.map_cons, if_neg (goodOut_spec c (allGood_cons h).1).2.2.2.2.2.2.2,
      ih (allGood_cons h).2]

theorem wsColonCollapse_of_allGood (l : List Char) (h : allGood l) :
    wsColonCollapse l = l := by
  unfold wsColonCollapse
  induction l with
  | nil => rfl
  | cons c r ih =>
    rw [wsCollapseGo, if_neg]
    · rw [ih (allGood_cons h).2]
    · rw [(goodOut_spec c (allGood_cons h).1).2.2.1]
      simp

theorem filterSafe_of_allGood (l : List Char) (h : allGood l) :
    l.filter isKeySafe = l :=
  List.filter_eq_self.mpr fun c hc => (goodOut_spec c (h c hc)).2.2.2.1

theorem lowerL_of_allGood (l : List Char) (h : allGood l) : lowerL l = l := by
  induction l with
  | nil => rfl
  | cons c r ih =>
    simp only [lowerL, List.map_cons] at ih ⊢
    rw [(goodOut_spec c (allGood_cons h).1).1, ih (allGood_cons h).2]

theorem normalize_key_allGood (k : String) : allGood (normalize_key k).data := by
  intro c hc
  simp only [normalize_key, data_mk, lowerL, List.mem_map] at hc
  obtain ⟨c', hc', rfl⟩ := hc
  exact goodOut_lowerCh c' (List.of_mem_filter hc')

theorem normalize_key_of_allGood (s : String) (h : allGood s.data) :
    normalize_key s = s := by
  simp only [normalize_key]
  rw [stripL_of_allGood _ h, filterParen1_of_allGood _ h, filterParen2_of_allGood _ h,
    pctExpand_of_allGood _ h, mapSlash_of_allGood _ h, wsColonCollapse_of_allGood _ h,
    filterSafe_of_allGood _ h, lowerL_of_allGood _ h]
/-- C9: key normalization is idempotent — every character a normalization
can output is left unchanged by each of its stages, so normalizing an
already-normalized key returns it unchanged. -/
theorem normalize_key_idempotent (k : String) :
    normalize_key (normalize_key k) = normalize_key k :=
  normalize_key_of_allGood _ (normalize_key_allGood k)

/-! ## Round trip between the extractor's emit and the splitter's
key-value parser (C10) -/
theorem stripL_eq_trimEnd (l : List Char) : stripL l = trimEnd (l.dropWhile isSpaceCh) := rfl

theorem trimEnd_append_nonspace (x y : List Char) (c : Char) (hc : isSpaceCh c = false) :
    trimEnd (x ++ c :: y) = x ++ c :: trimEnd y := by
  unfold trimEnd
  rw [List.reverse_append, List.reverse_cons, List.append_assoc, List.singleton_append,
    List.dropWhile_append]
  split
  · rename_i hemp
    have : y.reverse.dropWhile isSpaceCh = [] := by
      simpa [List.isEmpty_iff] using hemp
    rw [this, List.dropWhile_cons, hc]
    simp
  · simp [List.reverse_append]

theorem trimEnd_append_space (x : List Char) (c : Char) (hc : isSpaceCh c = true) :
    trimEnd (x ++ [c]) = trimEnd x := by
  unfold trimEnd
  rw [List.reverse_append]
  simp [List.dropWhile_cons, hc]

theorem stripL_append_space (x : List Char) (c : Char) (hc : isSpaceCh c = true) :
    stripL (x ++ [c]) = stripL x := by
  rw [stripL_eq_trimEnd, stripL_eq_trimEnd, List.dropWhile_append]
  split
  · rename_i hemp
    have hx : x.dropWhile isSpaceCh = [] := by simpa [List.isEmpty_iff] using hemp
    rw [hx]
    simp [List.dropWhile_cons, hc, trimEnd]
  · exact trimEnd_append_space _ _ hc

theorem stripL_cons_space (c : Char) (l : List Char) (hc : isSpaceCh c = true) :
    stripL (c :: l) = stripL l := by
  unfold stripL
  rw [List.dropWhile_cons, hc]
  simp

theorem stripL_length_le (l : List Char) : (stripL l).length ≤ l.length := by
  unfold stripL
  simp only [List.length_reverse]
  calc ((l.dropWhile isSpaceCh).reverse.dropWhile isSpaceCh).length
      ≤ (l.dropWhile isSpaceCh).reverse.length :=
        (List.dropWhile_sublist _).length_le
    _ = (l.dropWhile isSpaceCh).length := List.length_reverse _
    _ ≤ l.length := (List.dropWhile_sublist _).length_le

theorem strip_self_head {c : Char} {r : List Char} (h : stripL (c :: r) = c :: r) :
    isSpaceCh c = false := by
  cases hc : isSpaceCh c
  · rfl
  · exfalso
    rw [stripL_cons_space c r hc] at h
    have := stripL_length_le r
    rw [h] at this
    simp at this

theorem splitFirst_append (c : Char) (x y : List Char) (hx : ¬ c ∈ x) :
    splitFirst c (x ++ c :: y) = (x, y) := by
  induction x with
  | nil => simp [splitFirst]
  | cons a r ih =>
    have ha : ¬ a = c := fun h => hx (by simp [h])
    simp only [List.cons_append, splitFirst, if_neg ha, List.append_eq,
      ih (fun h => hx (List.mem_cons_of_mem a h))]

/-- C10 amended: for every key containing no `=` and every value
containing no `#`, neither changed by surrounding-whitespace stripping,
the text line produced by the extractor's `emit` (with or without an
appended description) is parsed by the splitter's `parse_key_val` back to
exactly the same pair, the tab-hash-description suffix being stripped. -/
theorem emit_round_trip (k v : String)
    (hk_eq : '=' ∉ k.data) (hk_strip : stripL k.data = k.data)
    (hv_hash : '#' ∉ v.data) (hv_strip : stripL v.data = v.data) :
    parse_key_val (emit k v) = some (k, v) := by
  have hsp : isSpaceCh ' ' = true := rfl
  have htb : isSpaceCh '\t' = true := rfl
  have hhash : isSpaceCh '#' = false := rfl
  have hkeypart : stripL (k.data ++ [' ']) = k.data := by
    rw [stripL_append_space _ _ hsp, hk_strip]
  have hknot : '=' ∉ (k.data ++ [' ']) := by
    simp only [List.mem_append, List.mem_singleton]
    rintro (h | h)
    · exact hk_eq h
    · exact absurd h (by decide)
  have hmk : String.mk v.data = v := rfl
  rcases hd : describe k with _ | d
  · have hline : (k ++ " = " ++ v).data = (k.data ++ [' ']) ++ '=' :: ' ' :: v.data := by
      simp
    simp only [emit, hd, parse_key_val, hline]
    have hcont : (((k.data ++ [' ']) ++ '=' :: ' ' :: v.data).contains '=') = true := by
      simp [List.contains]
    rw [if_pos hcont, splitFirst_append '=' _ _ hknot]
    simp only [hkeypart, stripL_cons_space _ _ hsp, hv_strip]
    have hnc : ¬(v.data.contains '#' = true) := by
      simp [List.contains, hv_hash]
    rw [if_neg hnc]
  · have hline : (k ++ " = " ++ v ++ "\t# " ++ d).data =
        (k.data ++ [' ']) ++ '=' :: ' ' :: (v.data ++ '\t' :: '#' :: ' ' :: d.data) := by
      simp
    simp only [emit, hd, parse_key_val, hline]
    have hcont : ((k.data ++ [' ']) ++ '=' :: ' ' ::
        (v.data ++ '\t' :: '#' :: ' ' :: d.data)).contains '=' = true := by
      simp [List.contains]
    rw [if_pos hcont, splitFirst_append '=' _ _ hknot]
    simp only [hkeypart, stripL_cons_space _ _ hsp]
    rcases hv : v.data with _ | ⟨c0, v'⟩
    · simp only [List.nil_append]
      have hval : stripL ('\t' :: '#' :: ' ' :: d.data) = '#' :: trimEnd (' ' :: d.data) := by
        rw [stripL_cons_space _ _ htb, stripL_eq_trimEnd, List.dropWhile_cons, hhash]
        simp only [Bool.false_eq_true, if_false]
        simpa using trimEnd_append_nonspace [] (' ' :: d.data) '#' hhash
      rw [hval]
      have hcont2 : (('#' :: trimEnd (' ' :: d.data)).contains '#') = true := by
        simp [List.contains]
      rw [if_pos hcont2]
      have hsf : splitFirst '#' ('#' :: trimEnd (' ' :: d.data)) =
          ([], trimEnd (' ' :: d.data)) := by
        simp [splitFirst]
      rw [hsf, ← hmk, hv]
      rfl
    · have hv_str : stripL (c0 :: v') = c0 :: v' := hv ▸ hv_strip
      have hv_hsh : '#' ∉ (c0 :: v') := hv ▸ hv_hash
      have hmk2 : String.mk (c0 :: v') = v := by
        rw [← hmk, hv]
      have hhead : isSpaceCh c0 = false := strip_self_head hv_str
      have hval : stripL ((c0 :: v') ++ '\t' :: '#' :: ' ' :: d.data) =
          ((c0 :: v') ++ ['\t']) ++ '#' :: trimEnd (' ' :: d.data) := by
        have hassoc : (c0 :: v') ++ '\t' :: '#' :: ' ' :: d.data =
            ((c0 :: v') ++ ['\t']) ++ '#' :: (' ' :: d.data) := by simp
        rw [hassoc, stripL_eq_trimEnd]
        have hshape : (((c0 :: v') ++ ['\t']) ++ '#' :: (' ' :: d.data)) =
            c0 :: ((v' ++ ['\t']) ++ '#' :: (' ' :: d.data)) := by simp
        rw [hshape, List.dropWhile_cons, hhead]
        simp only [Bool.false_eq_true, if_false]
        rw [← hshape]
        exact trimEnd_append_nonspace _ _ '#' hhash
      rw [hval]
      have hcont2 : ((((c0 :: v') ++ ['\t']) ++ '#' :: trimEnd (' ' :: d.data)).contains '#')
          = true := by
        simp [List.contains]
      rw [if_pos hcont2]
      have hnotin : '#' ∉ ((c0 :: v') ++ ['\t']) := by
        simp only [List.mem_append, List.mem_singleton]
        rintro (h | h)
        · exact hv_hsh h
        · exact absurd h (by decide)
      rw [splitFirst_append '#' _ _ hnotin, stripL_append_space _ _ htb, hv_str, hmk2]

/-- C10 counterexample: a key containing `=` (allowed by the claim's
stated preconditions) does not round-trip — the splitter cuts at the first
`=`, so the pair (`a=b`, `c`) comes back as (`a`, `b = c`). -/
theorem emit_round_trip_counterexample :
    parse_key_val (emit "a=b" "c") = some ("a", "b = c") := by decide

/-- Witness for C10: the round trip at the described key `iodepth`. -/
theorem emit_round_trip_witness :
    parse_key_val (emit "iodepth" "32") = some ("iodepth", "32") :=
  emit_round_trip "iodepth" "32" (by decide) (by decide) (by decide) (by decide)

set_option maxHeartbeats 1000000 in
/-- C7 (counterexample): the spec says the iops handler fires for any line
CONTAINING the substring 'iops'; but the line "x iops: a=1" contains 'iops'
and is not handled by the iops rule - it falls through to the
colon-key-value fallback and yields the plain pair a = 1, with no iops_
prefix. -/
theorem iops_cex : parse_file ["x iops: a=1"] = Except.ok ["a = 1"] := by decide

set_option maxHeartbeats 1000000 in
/-- C7 (amended): the iops rule of the classifier actually requires the
stripped line to START with 'iops' (the conjunct 'iops' in sline being then
redundant); whenever the classifier selects the iops rule, the line starts
with 'iops' and the handler parses the text after the first colon as a
key-value list with prefix iops_. -/
theorem iops_amended (pct disk : Bool) (s : String)
    (h : lineRule pct disk s = LineRule.iopsLine) :
    lstartsWith s.data "iops" = true ∧
    processLine pct disk s = ((afterColon s).map fun t => parse_kv_list t "iops_") := by
  refine ⟨?_, by simp only [processLine, h]⟩
  unfold lineRule at h
  by_cases h1 : s = ""
  · rw [if_pos h1] at h; exact LineRule.noConfusion h
  rw [if_neg h1] at h
  by_cases h2 : (fioVersionM s.data).isSome = true
  · rw [if_pos h2] at h; exact LineRule.noConfusion h
  rw [if_neg h2] at h
  by_cases h3 : containsSub s.data "Laying out IO file".data = true
  · rw [if_pos h3] at h; exact LineRule.noConfusion h
  rw [if_neg h3] at h
  by_cases h4 : (groupJobsM s.data).isSome = true
  · rw [if_pos h4] at h; exact LineRule.noConfusion h
  rw [if_neg h4] at h
  by_cases h5 : (jobHeaderM s.data).isSome = true
  · rw [if_pos h5] at h; exact LineRule.noConfusion h
  rw [if_neg h5] at h
  by_cases h6 : lstartsWith (lowerL s.data) "clat percentiles" = true
  · rw [if_pos h6] at h; exact LineRule.noConfusion h
  rw [if_neg h6] at h
  by_cases h7 : (pct && lstartsWith s.data "|") = true
  · rw [if_pos h7] at h; exact LineRule.noConfusion h
  rw [if_neg h7] at h
  by_cases h8 : lstartsWith (s.data.dropWhile isSpaceCh) "READ:" = true
  · rw [if_pos h8] at h; exact LineRule.noConfusion h
  rw [if_neg h8] at h
  by_cases h9 : lstartsWith (s.data.dropWhile isSpaceCh) "WRITE:" = true
  · rw [if_pos h9] at h; exact LineRule.noConfusion h
  rw [if_neg h9] at h
  by_cases h10 : lstartsWith s.data "read:" = true
  · rw [if_pos h10] at h; exact LineRule.noConfusion h
  rw [if_neg h10] at h
  by_cases h11 : lstartsWith s.data "write:" = true
  · rw [if_pos h11] at h; exact LineRule.noConfusion h
  rw [if_neg h11] at h
  by_cases h12 : lstartsWith s.data "slat" = true
  · rw [if_pos h12] at h; exact LineRule.noConfusion h
  rw [if_neg h12] at h
  by_cases h13 : (lstartsWith s.data "clat" && !containsSub (lowerL s.data) "percentiles".data) = true
  · rw [if_pos h13] at h; exact LineRule.noConfusion h
  rw [if_neg h13] at h
  by_cases h14 : lstartsWith s.data "lat (usec)" = true
  · rw [if_pos h14] at h; exact LineRule.noConfusion h
  rw [if_neg h14] at h
  by_cases h15 : lstartsWith s.data "lat (msec)" = true
  · rw [if_pos h15] at h; exact LineRule.noConfusion h
  rw [if_neg h15] at h
  by_cases h16 : lstartsWith s.data "bw (" = true
  · rw [if_pos h16] at h; exact LineRule.noConfusion h
  rw [if_neg h16] at h
  by_cases hg : (lstartsWith s.data "iops" && containsSub s.data "iops".data) = true
  · rw [Bool.and_eq_true] at hg; exact hg.1
  rw [if_neg hg] at h
  rw [if_neg h14] at h
  by_cases h19 : lstartsWith s.data "cpu" = true
  · rw [if_pos h19] at h; exact LineRule.noConfusion h
  rw [if_neg h19] at h
  by_cases h20 : lstartsWith s.data "IO depths" = true
  · rw [if_pos h20] at h; exact LineRule.noConfusion h
  rw [if_neg h20] at h
  by_cases h21 : lstartsWith s.data "submit" = true
  · rw [if_pos h21] at h; exact LineRule.noConfusion h
  rw [if_neg h21] at h
  by_cases h22 : lstartsWith s.data "complete" = true
  · rw [if_pos h22] at h; exact LineRule.noConfusion h
  rw [if_neg h22] at h
  by_cases h23 : containsSub s.data "issued rwts".data = true
  · rw [if_pos h23] at h; exact LineRule.noConfusion h
  rw [if_neg h23] at h
  by_cases h24 : lstartsWith s.data "latency" = true
  · rw [if_pos h24] at h; exact LineRule.noConfusion h
  rw [if_neg h24] at h
  by_cases h25 : containsSub s.data "Disk stats".data = true
  · rw [if_pos h25] at h; exact LineRule.noConfusion h
  rw [if_neg h25] at h
  by_cases h26 : (disk && (diskDevM s.data).isSome) = true
  · rw [if_pos h26] at h; exact LineRule.noConfusion h
  rw [if_neg h26] at h
  exact LineRule.noConfusion h

set_option maxHeartbeats 1000000 in
/-- C7 (amended): the iops rule of the classifier actually requires the
stripped line to START with 'iops' (the conjunct 'iops' in sline being then
redundant); whenever the classifier selects the iops rule, the line starts
with 'iops' and the handler parses the text after the first colon as a
key-value list with prefix iops_. -/
theorem iops_amended_witness :
    lstartsWith (String.data "iops : min=1, max=2") "iops" = true ∧
    processLine false false "iops : min=1, max=2" =
      ((afterColon "iops : min=1, max=2").map fun t => parse_kv_list t "iops_") :=
  iops_amended false false "iops : min=1, max=2" (by decide)
